import Mathlib

/-!
Verification of the ampy command-line tool (`ampy/cli.py`) and firmware
builder (`ampy/core/firmware_builder.py`) against its specification.

The Python source is shallowly embedded: pure helpers become Lean
functions; CLI commands that interleave local control flow with calls to
the remote-board service become functions from the (abstracted) outcomes
of those calls to a trace of the performed actions, with uncaught Python
exceptions modelled as `Except.error`.
-/

/-! ## Windows COM-port rewriting (`cli.py`, `windows_full_port_name`) -/

/-- Numeric value of a decimal digit string, as Python `int` computes it. -/
def digitsVal (ds : List Char) : Nat :=
  ds.foldl (fun acc c => 10 * acc + (c.toNat - 48)) 0

/-- Embedding of `re.match("^COM(\d+)$", portname)` followed by
`int(m.group(1))`: `some n` when the whole string is `COM` followed by one
or more digits (whose value is `n`), `none` otherwise.  (`\d` is modelled
as the ASCII digits `0`-`9`.) -/
def comMatch (s : String) : Option Nat :=
  match s.data with
  | 'C' :: 'O' :: 'M' :: rest =>
    if rest.isEmpty then none
    else if rest.all Char.isDigit then some (digitsVal rest) else none
  | _ => none

/-- Embedding of `windows_full_port_name` (`cli.py` lines 48-58): names
matching `COM<N>` with `N < 10` are returned unchanged; every other name
gets the extended device-path `\\.\` prepended. -/
def windows_full_port_name (portname : String) : String :=
  match comMatch portname with
  | some n => if n < 10 then portname else "\\\\.\\" ++ portname
  | none => "\\\\.\\" ++ portname

/-! ## Entrypoint generation (`firmware_builder.py`, `generate_main_py`) -/

/-- A module passed to `generate_main_py`: its base name (`module.name`),
whether it is a directory (`module.is_dir()`), and whether it contains a
`__main__.py` file (`(module / "__main__.py").exists()`). -/
structure BuildModule where
  name : String
  isDir : Bool
  hasMainPy : Bool
deriving DecidableEq, Repr

/-- The fixed `AUTOGENERATED_WARNING` header from `firmware_builder.py`
(note the trailing space after `file.` in the source). -/
def AUTOGENERATED_WARNING : String :=
  "# Generated by ampy!\n# You probably don't need to modify this file. \n# It shall be automatically overwritten without warning.\n"

/-- The text the `for module in modules` loop of `generate_main_py`
writes to the output buffer when no explicit entrypoint is given: a
directory without `__main__.py` is skipped (`continue`); a directory
with one contributes `import <name>.__main__` and the loop `break`s; a
plain file contributes `import <name>` and the loop `break`s. -/
def implicitImportText : List BuildModule → String
  | [] => ""
  | m :: ms =>
    if m.isDir then
      if ¬ m.hasMainPy then implicitImportText ms
      else "import " ++ m.name ++ ".__main__\n"
    else "import " ++ m.name ++ "\n"

/-- Splits a character list at the first occurrence of `c`; `none` when
`c` does not occur. -/
def splitFirst (c : Char) : List Char → Option (List Char × List Char)
  | [] => none
  | x :: xs =>
    if x = c then some ([], xs)
    else
      match splitFirst c xs with
      | none => none
      | some (l, r) => some (x :: l, r)

/-- Accumulator-based splitting of a character list on every occurrence
of `c` (like Python `str.split(c)`). -/
def splitAllAux (c : Char) : List Char → List Char → List (List Char)
  | [], acc => [acc.reverse]
  | x :: xs, acc =>
    if x = c then acc.reverse :: splitAllAux c xs [] else splitAllAux c xs (x :: acc)

/-- Splits a character list on every occurrence of `c`. -/
def splitAll (c : Char) (l : List Char) : List (List Char) :=
  splitAllAux c l []

/-- Model of the external `pkg_resources.EntryPoint.parse` applied to
`name=<e> [extras]` as `generate_main_py` uses it, for specifiers of the
`module[:attrs]` entry-point convention: the result is
(`module_name`, `attrs`), where `attrs` is the part after the first `:`
split on `.` (empty when there is no `:` or nothing follows it). -/
def parseEntryPointSpec (e : String) : String × List String :=
  match splitFirst ':' e.data with
  | none => (e, [])
  | some (m, rest) =>
    (String.mk m, if rest.isEmpty then [] else (splitAll '.' rest).map String.mk)

/-- Embedding of `generate_main_py` (`firmware_builder.py` lines 44-71):
the autogenerated warning, then either the explicit-entrypoint import
(plus a zero-argument call when a callable attribute was given), or the
first applicable module's import line. -/
def generate_main_py (entrypoint : Option String) (modules : List BuildModule) : String :=
  AUTOGENERATED_WARNING ++
    match entrypoint with
    | some e =>
      let p := parseEntryPointSpec e
      "import " ++ p.1 ++ "\n" ++
        (match p.2 with
         | [] => ""
         | a :: _ => p.1 ++ "." ++ a ++ "()\n")
    | none => implicitImportText modules

/-- A module is applicable for implicit-entrypoint selection when it is a
plain file, or a directory containing `__main__.py`. -/
def applicableModule (m : BuildModule) : Bool :=
  !m.isDir || m.hasMainPy

/-- The import line the entrypoint script would emit for module `m`. -/
def importLineFor (m : BuildModule) : String :=
  if m.isDir then "import " ++ m.name ++ ".__main__\n" else "import " ++ m.name ++ "\n"

/-! ## `put --checksum` skip decision (`cli.py`, `copy_file` inside `put`) -/

/-- UTF-8 encoding of a single character (code point) as byte values. -/
def utf8EncodeChar (c : Char) : List Nat :=
  let n := c.toNat
  if n < 0x80 then [n]
  else if n < 0x800 then [0xC0 ||| (n >>> 6), 0x80 ||| (n &&& 0x3F)]
  else if n < 0x10000 then
    [0xE0 ||| (n >>> 12), 0x80 ||| ((n >>> 6) &&& 0x3F), 0x80 ||| (n &&& 0x3F)]
  else
    [0xF0 ||| (n >>> 18), 0x80 ||| ((n >>> 12) &&& 0x3F),
     0x80 ||| ((n >>> 6) &&& 0x3F), 0x80 ||| (n &&& 0x3F)]

/-- UTF-8 encoding of a string as byte values (Python `str.encode("utf-8")`). -/
def utf8Encode (s : String) : List Nat :=
  (s.data.map utf8EncodeChar).flatten

/-- The `checksum_matches` computation of `copy_file` (`cli.py` lines
352-360): only attempted when the `--checksum` flag is set; a failure of
`board_files.checksum(remote_filepath)` is swallowed by the bare
`except`, leaving `checksum_matches = False`; on success the remote hash
bytes are compared with `hashlib.sha256(contents).hexdigest()` encoded as
UTF-8 bytes.  `sha256hexdigest` abstracts the external `hashlib`
computation; `contents` is the (possibly stripped) local byte content. -/
def copyFileChecksumMatches (sha256hexdigest : List Nat → String) (checksumFlag : Bool)
    (contents : List Nat) (remoteHashResult : Except Unit (List Nat)) : Bool :=
  if checksumFlag then
    match remoteHashResult with
    | .error _ => false
    | .ok remotehash => remotehash = utf8Encode (sha256hexdigest contents)
  else false

/-- Whether `copy_file` performs the upload (`if not checksum_matches:
board_files.put(...)`, `cli.py` lines 373-376). -/
def copyFileUploads (sha256hexdigest : List Nat → String) (checksumFlag : Bool)
    (contents : List Nat) (remoteHashResult : Except Unit (List Nat)) : Bool :=
  ! copyFileChecksumMatches sha256hexdigest checksumFlag contents remoteHashResult

/-! ## `mkdir` (`cli.py` lines 222-251) -/

/-- The `if directory[0] != '/': directory = "/" + directory`
normalization at `cli.py` lines 245-246 (only reached with
`--make-parents`; indexing an empty string would raise in Python, which
is modelled separately in `mkdirCmdCalls`). -/
def normalizeDir (d : String) : String :=
  match d.data with
  | [] => d
  | c :: _ => if c ≠ '/' then "/" ++ d else d

/-- Python `str.split(sep)` for a one-character separator `c`. -/
def pySplit (c : Char) (s : String) : List String :=
  (splitAll c s.data).map String.mk

/-- Joins strings with a separator (Python `sep.join(parts)`). -/
def joinSep (sep : String) : List String → String
  | [] => ""
  | [x] => x
  | x :: y :: xs => x ++ sep ++ joinSep sep (y :: xs)

/-- The `for dir in directory.split("/")[1:-1]` loop at `cli.py` lines
247-250: `dirpath` accumulates `"/" + dir` per segment and each
accumulated path is passed to `board_files.mkdir` with
`exists_okay=True`. -/
def mkdirParentLoop (dirpath : String) : List String → List (String × Bool)
  | [] => []
  | d :: ds => (dirpath ++ "/" ++ d, true) :: mkdirParentLoop (dirpath ++ "/" ++ d) ds

/-- The sequence of `board_files.mkdir(path, exists_okay)` calls the
`mkdir` command issues (`cli.py` lines 243-251), in order;
`Except.error ()` models the `IndexError` Python raises on
`directory[0]` when the argument is the empty string and
`--make-parents` is set. -/
def mkdirCmdCalls (directory : String) (exists_okay make_parents : Bool) :
    Except Unit (List (String × Bool)) :=
  if make_parents then
    if directory.data.isEmpty then .error ()
    else
      let dir := normalizeDir directory
      .ok (mkdirParentLoop "" (((pySplit '/' dir).drop 1).dropLast) ++ [(dir, exists_okay)])
  else .ok [(directory, exists_okay)]

/-- One path strictly extends another (root-to-leaf nesting of the
created directories). -/
def pathBelow (a b : String) : Prop :=
  ∃ t, t ≠ "" ∧ b = a ++ t

/-- Parent of an absolute remote path: drop the last `/`-separated
segment (`/a/b` ↦ `/a`, `/a` ↦ `/`). -/
def parentPath (p : String) : String :=
  let segs := (pySplit '/' p).dropLast
  if segs = [""] ∨ segs = [] then "/" else joinSep "/" segs

/-- Modelled from the spec: `ampy/files.py` is not part of the supplied
source; §4.3 specifies `Files.mkdir` as failing with a directory-exists
condition when the target already exists and `exists_okay` is false, and
§4.1/§8 specify that creating a directory whose ancestor is missing
fails.  The device state is the list of existing directories (the root
`/` always exists). -/
def filesMkdir (fs : List String) (path : String) (exists_okay : Bool) :
    Except Unit (List String) :=
  if path = "/" ∨ path ∈ fs then
    if exists_okay then .ok fs else .error ()
  else if parentPath path = "/" ∨ parentPath path ∈ fs then .ok (path :: fs)
  else .error ()

/-- Runs a sequence of `(path, exists_okay)` mkdir calls against the
spec-modelled device filesystem, stopping at the first failure (an
uncaught exception aborts the command). -/
def runMkdirs (fs : List String) : List (String × Bool) → Except Unit (List String)
  | [] => .ok fs
  | (p, eo) :: rest =>
    match filesMkdir fs p eo with
    | .error e => .error e
    | .ok fs2 => runMkdirs fs2 rest

/-! ## `rm` (`cli.py` lines 414-434) -/

/-- Observable activity of the `rm` command: the `board_files.rm` calls
attempted and the missing-file warnings printed to standard error. -/
structure RmTrace where
  attempted : List String
  warnings : List String
deriving DecidableEq, Repr

/-- Whether the remote delete of `f` raises `RuntimeError` (the outcome
function `res` abstracts `board_files.rm`; the `String` payload is the
exception's message). -/
def rmFails (res : String → Except String Unit) (f : String) : Bool :=
  match res f with
  | .error _ => true
  | .ok _ => false

/-- Embedding of the `for filepath in remote_files` loop of `rm`
(`cli.py` lines 426-434): each target is attempted; on `RuntimeError`,
without `--force` the exception propagates (`Except.error` carries the
trace at the abort), with `--force` it is suppressed and a warning is
printed only when `--verbose` is set. -/
def rmRun (res : String → Except String Unit) (verbose force : Bool) :
    List String → RmTrace → Except RmTrace RmTrace
  | [], t => .ok t
  | f :: fs, t =>
    let t1 : RmTrace := ⟨t.attempted ++ [f], t.warnings⟩
    match res f with
    | .ok _ => rmRun res verbose force fs t1
    | .error _ =>
      if ¬ force then .error t1
      else if verbose then rmRun res verbose force fs ⟨t1.attempted, t1.warnings ++ [f]⟩
      else rmRun res verbose force fs t1

/-! ## `reset` (`cli.py` lines 560-605) -/

/-- The board interactions the `reset` command performs, in order. -/
inductive ResetAction where
  | enterRawRepl : ResetAction
  | exitRawRepl : ResetAction
  | execHelper : ResetAction
  | evalOnNextReset : ResetAction
  | printHereWeAre (r : String) : ResetAction
  | echoErr (r : String) : ResetAction
  | execRawNoFollow (code : String) : ResetAction
deriving DecidableEq, Repr

/-- Outcome of `_board.exec_raw_no_follow("reset()")`: `Except.error`
when the underlying serial transport raises `SerialException` (the board
dropping the connection on reset). -/
def execRawNoFollowCall (raisesSerial : Bool) : Except Unit Unit :=
  if raisesSerial then .error () else .ok ()

/-- Embedding of the `reset` command (`cli.py` lines 560-605): enter raw
REPL; `SOFT` mode just exits raw REPL; otherwise the helper is executed,
`on_next_reset(mode)` is evaluated to the error string `r`, a non-empty
`r` is echoed to standard error and the command returns; with empty `r`
the final `reset()` is submitted via `exec_raw_no_follow` inside
`try/except SerialException: pass`, so a serial exception there is
swallowed and the command still returns normally. -/
def resetCmd (mode : String) (r : String) (raisesSerial : Bool) :
    Except Unit (List ResetAction) :=
  let acts := [ResetAction.enterRawRepl]
  if mode = "SOFT" then .ok (acts ++ [ResetAction.exitRawRepl])
  else
    let acts := acts ++ [ResetAction.execHelper, ResetAction.evalOnNextReset,
      ResetAction.printHereWeAre r]
    if r ≠ "" then .ok (acts ++ [ResetAction.echoErr r])
    else
      let acts := acts ++ [ResetAction.execRawNoFollow "reset()"]
      match execRawNoFollowCall raisesSerial with
      | .error _ => .ok acts
      | .ok _ => .ok acts

/-! ## `get` argument checking (`cli.py` lines 107-158) -/

/-- How click binds the positional arguments of `get`: the variadic
`remote_file` argument is followed by one optional `LOCAL_PATH`
argument, which click fills from the right, so with `n ≥ 1` words the
last becomes `local_path` and the rest `remote_files` (with zero words
both are empty).  This is the external CLI layer's documented behavior,
presupposed by the comment at `cli.py` line 146. -/
def clickAssignGet (args : List String) : List String × Option String :=
  match args.getLast? with
  | none => ([], none)
  | some l => (args.dropLast, some l)

/-- The argument-fixup and validation phase of `get` (`cli.py` lines
146-156), which runs before any device operation: a single word is
reinterpreted as the one remote file; then zero remote files is a usage
error, and more than one remote file whose `local_path` is not an
existing local directory is a usage error.  `isDir` abstracts
`pathlib.Path.is_dir` on the host (false for nonexistent paths). -/
def getArgPhase (isDir : String → Bool) (args : List String) :
    Except String (List String × Option String) :=
  let p := clickAssignGet args
  let q : List String × Option String :=
    match p with
    | ([], some lp) => ([lp], none)
    | _ => p
  if q.1.length = 0 then .error "Must specify at least one remote file"
  else if q.1.length > 1 then
    match q.2 with
    | none => .error "AttributeError"
    | some lp =>
      if ¬ isDir lp then
        .error ("Invalid value for 'LOCAL_PATH': Directory '" ++ lp ++ "' does not exist.")
      else .ok q
  else .ok q

/-! ## `run` (`cli.py` lines 470-498) -/

/-- Outcome of `board_files.run(local_file, ...)`: a decoded output (or
`none` under `--no-output`), an `IOError` from reading the local file,
or any other exception. -/
inductive RunOutcome where
  | output (s : Option String) : RunOutcome
  | ioError : RunOutcome
  | otherError : RunOutcome
deriving DecidableEq, Repr

/-- A line the `run` command emits: `out` to standard output, `err` via
`click.echo(..., err=True)` to standard error. -/
inductive ConsoleEvent where
  | out (s : String) : ConsoleEvent
  | err (s : String) : ConsoleEvent
deriving DecidableEq, Repr

/-- Embedding of the `run` command body (`cli.py` lines 489-498): the
`try` block prints the decoded output when there is one; `except
IOError` prints the friendly message to standard error and the command
returns normally; any other exception propagates. -/
def runCmd (local_file : String) (outcome : RunOutcome) :
    Except Unit (List ConsoleEvent) :=
  match outcome with
  | .output none => .ok []
  | .output (some s) => .ok [ConsoleEvent.out s]
  | .ioError =>
    .ok [ConsoleEvent.err ("Failed to find or read input file: " ++ local_file)]
  | .otherError => .error ()

/-! ## Theorems -/

/-- Claim C1, counterexample: the claim says a name that does not match
the `COM<N>` pattern is left unchanged, but `windows_full_port_name`
sends `/dev/ttyUSB0` to `\\.\/dev/ttyUSB0`. -/
theorem c1_counterexample :
    ¬ (windows_full_port_name "/dev/ttyUSB0" = "/dev/ttyUSB0") := by
  decide

/-- Claim C1, amended: `windows_full_port_name` leaves `COM<N>` with
`N < 10` unchanged, rewrites `COM<N>` with `N ≥ 10` to `\\.\COM<N>`, and
also prefixes `\\.\` to every name that does not match the `COM<N>`
pattern (instead of leaving such names unchanged). -/
theorem c1_port_name_rewrite (s : String) (ds : List Char)
    (hne : ds ≠ []) (hdig : ∀ c ∈ ds, c.isDigit) :
    (digitsVal ds < 10 →
      windows_full_port_name (String.mk ('C' :: 'O' :: 'M' :: ds)) =
        String.mk ('C' :: 'O' :: 'M' :: ds))
    ∧ (10 ≤ digitsVal ds →
      windows_full_port_name (String.mk ('C' :: 'O' :: 'M' :: ds)) =
        "\\\\.\\" ++ String.mk ('C' :: 'O' :: 'M' :: ds))
    ∧ (comMatch s = none → windows_full_port_name s = "\\\\.\\" ++ s) := by
  have hm : comMatch (String.mk ('C' :: 'O' :: 'M' :: ds)) = some (digitsVal ds) := by
    simp [comMatch, List.isEmpty_iff, hne, List.all_eq_true.mpr hdig]
  refine ⟨fun h => ?_, fun h => ?_, fun h => ?_⟩
  · simp [windows_full_port_name, hm, h]
  · simp [windows_full_port_name, hm, Nat.not_lt.mpr h]
  · simp [windows_full_port_name, h]

/-- Claim C1, witness: `COM10` gets the extended prefix and a
non-matching name gets it as well. -/
theorem c1_witness :
    windows_full_port_name (String.mk ['C', 'O', 'M', '1', '0']) =
      "\\\\.\\" ++ String.mk ['C', 'O', 'M', '1', '0']
    ∧ windows_full_port_name "/dev/random" = "\\\\.\\" ++ "/dev/random" := by
  have h := c1_port_name_rewrite "/dev/random" ['1', '0'] (by decide) (by decide)
  exact ⟨h.2.1 (by decide), h.2.2 (by decide)⟩

/-- Claim C2: with no explicit entrypoint, the generated script is the
autogenerated warning followed by the import line of the first
applicable module of the list (a directory counts only if it contains
`__main__.py`), and nothing for the later modules; no import line at all
when no module is applicable. -/
theorem c2_first_applicable_module (ms : List BuildModule) :
    generate_main_py none ms =
      AUTOGENERATED_WARNING ++
        (match ms.find? applicableModule with
         | none => ""
         | some m => importLineFor m) := by
  have h : ∀ ms : List BuildModule,
      implicitImportText ms =
        (match ms.find? applicableModule with
         | none => ""
         | some m => importLineFor m) := by
    intro ms
    induction ms with
    | nil => simp [implicitImportText]
    | cons m ms ih =>
      by_cases hd : m.isDir
      · by_cases hmain : m.hasMainPy
        · have ha : applicableModule m = true := by simp [applicableModule, hd, hmain]
          simp [implicitImportText, hd, hmain, List.find?_cons_of_pos _ ha,
            importLineFor]
        · have ha : ¬ (applicableModule m = true) := by
            simp [applicableModule, hd, hmain]
          simp [implicitImportText, hd, hmain, List.find?_cons_of_neg _ ha, ih]
      · have ha : applicableModule m = true := by simp [applicableModule, hd]
        simp [implicitImportText, hd, List.find?_cons_of_pos _ ha, importLineFor]
  simp [generate_main_py, h ms]

/-- Claim C3: in `put --checksum`, a failed remote-hash retrieval always
lets the upload proceed, and the upload is skipped exactly when the
retrieved remote hash equals the SHA-256 hex digest of the local
(possibly stripped) content, encoded as bytes. -/
theorem c3_checksum_skip (sha256hexdigest : List Nat → String) (contents : List Nat)
    (remoteHashResult : Except Unit (List Nat)) :
    copyFileUploads sha256hexdigest true contents (.error ()) = true
    ∧ (copyFileUploads sha256hexdigest true contents remoteHashResult = false ↔
        remoteHashResult = .ok (utf8Encode (sha256hexdigest contents))) := by
  constructor
  · simp [copyFileUploads, copyFileChecksumMatches]
  · cases remoteHashResult with
    | error e => simp [copyFileUploads, copyFileChecksumMatches]
    | ok rh => simp [copyFileUploads, copyFileChecksumMatches]

/-- A character that does not occur in a list is never found by
`splitFirst`. -/
theorem splitFirst_eq_none (c : Char) (l : List Char) (h : c ∉ l) :
    splitFirst c l = none := by
  induction l with
  | nil => rfl
  | cons x xs ih =>
    have hx : ¬ x = c := by rintro rfl; exact h (List.mem_cons_self _ _)
    have hxs : c ∉ xs := fun hm => h (List.mem_cons_of_mem _ hm)
    simp [splitFirst, hx, ih hxs]

/-- `splitFirst` splits exactly at the first occurrence of `c`. -/
theorem splitFirst_append_cons (c : Char) (l r : List Char) (h : c ∉ l) :
    splitFirst c (l ++ c :: r) = some (l, r) := by
  induction l with
  | nil => simp [splitFirst]
  | cons x xs ih =>
    have hx : ¬ x = c := by rintro rfl; exact h (List.mem_cons_self _ _)
    have hxs : c ∉ xs := fun hm => h (List.mem_cons_of_mem _ hm)
    simp [splitFirst, hx, ih hxs]

/-- Splitting a list free of the separator yields a single piece. -/
theorem splitAllAux_no_sep (c : Char) (l : List Char) (h : c ∉ l) :
    ∀ acc : List Char, splitAllAux c l acc = [acc.reverse ++ l] := by
  induction l with
  | nil => intro acc; simp [splitAllAux]
  | cons x xs ih =>
    intro acc
    have hx : ¬ x = c := by rintro rfl; exact h (List.mem_cons_self _ _)
    have hxs : c ∉ xs := fun hm => h (List.mem_cons_of_mem _ hm)
    simp [splitAllAux, hx, ih hxs]

/-- An entrypoint specifier `<module>` without `:` parses to the module
name with no attributes. -/
theorem parseEntryPointSpec_module (m : String) (hm : ':' ∉ m.data) :
    parseEntryPointSpec m = (m, []) := by
  rw [parseEntryPointSpec, splitFirst_eq_none _ _ hm]

/-- An entrypoint specifier `<module>:<callable>` with a dot-free,
nonempty callable parses to the module name and the single attribute. -/
theorem parseEntryPointSpec_module_callable (m c : String) (hm : ':' ∉ m.data)
    (hc : c.data ≠ []) (hcdot : '.' ∉ c.data) :
    parseEntryPointSpec (m ++ ":" ++ c) = (m, [c]) := by
  have hdata : (m ++ ":" ++ c).data = m.data ++ ':' :: c.data := by
    simp [String.data_append]
  rw [parseEntryPointSpec, hdata, splitFirst_append_cons _ _ _ hm]
  have h1 : String.mk m.data = m := rfl
  have h2 : (c.data).isEmpty = false := by
    cases hx : c.data with
    | nil => exact absurd hx hc
    | cons a b => rfl
  simp [h1, h2, splitAll, splitAllAux_no_sep _ _ hcdot]

/-- Claim C8: for an entrypoint specifier `<module>[:<callable>]`, the
generated script is exactly the fixed three-line autogenerated warning,
the line `import <module>`, and — exactly when a callable was given —
the call line `<module>.<callable>()`. -/
theorem c8_explicit_entrypoint (m c : String) (mods : List BuildModule)
    (hm : ':' ∉ m.data) (hc : c.data ≠ []) (hcdot : '.' ∉ c.data) :
    generate_main_py (some m) mods =
      AUTOGENERATED_WARNING ++ "import " ++ m ++ "\n"
    ∧ generate_main_py (some (m ++ ":" ++ c)) mods =
        AUTOGENERATED_WARNING ++ "import " ++ m ++ "\n" ++ m ++ "." ++ c ++ "()\n" := by
  constructor
  · rw [generate_main_py, parseEntryPointSpec_module m hm]
    simp [String.append_assoc, String.append_empty]
  · rw [generate_main_py, parseEntryPointSpec_module_callable m c hm hc hcdot]
    simp [String.append_assoc]

/-- Claim C8, witness: the specifier `app:main` yields exactly the
warning, `import app`, and `app.main()`. -/
theorem c8_witness :
    generate_main_py (some ("app" ++ ":" ++ "main")) [] =
      AUTOGENERATED_WARNING ++ "import " ++ "app" ++ "\n" ++ "app" ++ "." ++ "main" ++ "()\n" := by
  exact (c8_explicit_entrypoint "app" "main" [] (by decide) (by decide) (by decide)).2

/-- Every parent-directory creation in the `--make-parents` loop uses
`exists_okay=True`. -/
theorem mkdirParentLoop_snd (p : String) (ss : List String) :
    ∀ x ∈ mkdirParentLoop p ss, x.2 = true := by
  induction ss generalizing p with
  | nil => simp [mkdirParentLoop]
  | cons s ss ih =>
    intro x hx
    simp only [mkdirParentLoop, List.mem_cons] at hx
    rcases hx with h | h
    · rw [h]
    · exact ih _ x h

/-- Each accumulated `dirpath` strictly extends the previous one. -/
theorem pathBelow_step (a s : String) : pathBelow a (a ++ "/" ++ s) := by
  refine ⟨"/" ++ s, ?_, String.append_assoc a "/" s⟩
  intro h
  have h2 : (("/" ++ s : String)).data = ("" : String).data := congrArg String.data h
  simp [String.data_append] at h2

/-- The parent directories created by the `--make-parents` loop are
nested root-to-leaf: each one strictly extends the one before it. -/
theorem mkdirParentLoop_chain (p : String) (ss : List String) :
    List.Chain' pathBelow ((mkdirParentLoop p ss).map Prod.fst) := by
  induction ss generalizing p with
  | nil => simp [mkdirParentLoop]
  | cons s ss ih =>
    cases ss with
    | nil => simp [mkdirParentLoop]
    | cons s2 ss2 =>
      have h2 := ih (p ++ "/" ++ s)
      simp only [mkdirParentLoop, List.map_cons] at h2 ⊢
      exact (List.chain'_cons).mpr ⟨pathBelow_step _ _, h2⟩

/-- Claim C4: with `--make-parents`, `mkdir` first creates the ancestor
directories of the target root-to-leaf, each with exists-okay semantics,
then creates the target with the user's chosen exists-okay setting;
without `--make-parents` only the target is created, and against the
spec-modelled device filesystem that single call fails when an ancestor
of the target is missing.  The last conjunct instantiates the spec's
example: `mkdir --make-parents /a/b/c` issues the three creations in
root-to-leaf order and succeeds even though `/a` already exists. -/
theorem c4_mkdir_make_parents (d : String) (eo : Bool) (h : d ≠ "") :
    (∃ parents,
      mkdirCmdCalls d eo true = .ok (parents ++ [(normalizeDir d, eo)])
      ∧ (∀ x ∈ parents, x.2 = true)
      ∧ List.Chain' pathBelow (parents.map Prod.fst))
    ∧ mkdirCmdCalls d eo false = .ok [(d, eo)]
    ∧ (∀ fs, d ≠ "/" → d ∉ fs → parentPath d ≠ "/" → parentPath d ∉ fs →
        runMkdirs fs [(d, eo)] = .error ())
    ∧ mkdirCmdCalls "/a/b/c" eo true =
        .ok [("/a", true), ("/a/b", true), ("/a/b/c", eo)]
    ∧ runMkdirs ["/a"] [("/a", true), ("/a/b", true), ("/a/b/c", eo)] =
        .ok ["/a/b/c", "/a/b", "/a"] := by
  have hde : d.data.isEmpty = false := by
    cases hx : d.data with
    | nil =>
      exfalso
      apply h
      have e : d = String.mk d.data := rfl
      rw [hx] at e
      exact e
    | cons a b => rfl
  refine ⟨⟨mkdirParentLoop "" (((pySplit '/' (normalizeDir d)).drop 1).dropLast),
      ?_, mkdirParentLoop_snd _ _, mkdirParentLoop_chain _ _⟩, ?_, ?_, ?_, ?_⟩
  · simp [mkdirCmdCalls, hde]
  · simp [mkdirCmdCalls]
  · intro fs h1 h2 h3 h4
    simp [runMkdirs, filesMkdir, h1, h2, h3, h4]
  · cases eo <;> rfl
  · cases eo <;> rfl

/-- Claim C4, witness: at `/a/b/c` without `--make-parents` the single
creation call is issued and fails on the device when `/a/b` is missing. -/
theorem c4_witness :
    mkdirCmdCalls "/a/b/c" false false = .ok [("/a/b/c", false)]
    ∧ runMkdirs [] [("/a/b/c", false)] = .error () := by
  have h := c4_mkdir_make_parents "/a/b/c" false (by decide)
  exact ⟨h.2.1, h.2.2.1 [] (by decide) (by simp) (by decide) (by simp)⟩

/-- With `--force`, the `rm` loop runs to completion whatever the
per-target outcomes: every target is attempted and a warning is recorded
exactly for the failing targets, only when `--verbose` is set. -/
theorem rmRun_force_ok (res : String → Except String Unit) (v : Bool) :
    ∀ (files : List String) (t : RmTrace),
      rmRun res v true files t =
        .ok ⟨t.attempted ++ files,
          t.warnings ++ (if v then files.filter (rmFails res) else [])⟩ := by
  intro files
  induction files with
  | nil => intro t; simp [rmRun]
  | cons f fs ih =>
    intro t
    cases hr : res f with
    | ok u =>
      have hf : rmFails res f = false := by simp [rmFails, hr]
      cases v <;> simp [rmRun, hr, ih, hf]
    | error e =>
      have hf : rmFails res f = true := by simp [rmFails, hr]
      cases v <;> simp [rmRun, hr, ih, hf]

/-- Without `--force`, the `rm` loop aborts at the first failing target:
the targets before it are attempted, the failing one is attempted, and
the `RuntimeError` propagates. -/
theorem rmRun_noforce_abort (res : String → Except String Unit) (v : Bool)
    (f : String) (post : List String) (hf : rmFails res f = true) :
    ∀ (pre : List String) (t : RmTrace), (∀ g ∈ pre, rmFails res g = false) →
      rmRun res v false (pre ++ f :: post) t =
        .error ⟨t.attempted ++ pre ++ [f], t.warnings⟩ := by
  intro pre
  induction pre with
  | nil =>
    intro t hp
    cases hr : res f with
    | ok u => simp [rmFails, hr] at hf
    | error e => simp [rmRun, hr]
  | cons g gs ih =>
    intro t hp
    have hg : rmFails res g = false := hp g (List.mem_cons_self _ _)
    cases hr : res g with
    | error e => simp [rmFails, hr] at hg
    | ok u =>
      have h2 := ih ⟨t.attempted ++ [g], t.warnings⟩
        (fun x hx => hp x (List.mem_cons_of_mem _ hx))
      have h3 : rmRun res v false ((g :: gs) ++ f :: post) t =
          rmRun res v false (gs ++ f :: post) ⟨t.attempted ++ [g], t.warnings⟩ := by
        simp [rmRun, hr]
      rw [h3, h2]
      simp [List.append_assoc]

/-- Claim C5: with `--force`, a remote-deletion failure on one target
does not abort `rm`: all targets are processed, warnings appear exactly
for the failing targets and only under `--verbose`, and the command
completes successfully; without `--force`, the first failing target
aborts the command with the error propagating. -/
theorem c5_rm_force (res : String → Except String Unit) (v : Bool) (files : List String) :
    rmRun res v true files ⟨[], []⟩ =
      .ok ⟨files, if v then files.filter (rmFails res) else []⟩
    ∧ (∀ pre f post, files = pre ++ f :: post →
        (∀ g ∈ pre, rmFails res g = false) → rmFails res f = true →
        rmRun res v false files ⟨[], []⟩ = .error ⟨pre ++ [f], []⟩) := by
  constructor
  · have h := rmRun_force_ok res v files ⟨[], []⟩
    simpa using h
  · intro pre f post hsplit hpre hf
    subst hsplit
    have h := rmRun_noforce_abort res v f post hf pre ⟨[], []⟩ hpre
    simpa using h

/-- Claim C5, witness: with targets `a b c` where only `b` fails,
`--force --verbose` processes all three and warns once; without
`--force` the command aborts right after `b`. -/
theorem c5_witness :
    rmRun (fun s => if s = "b" then .error "no such file" else .ok ()) true true
        ["a", "b", "c"] ⟨[], []⟩ = .ok ⟨["a", "b", "c"], ["b"]⟩
    ∧ rmRun (fun s => if s = "b" then .error "no such file" else .ok ()) true false
        ["a", "b", "c"] ⟨[], []⟩ = .error ⟨["a", "b"], []⟩ := by
  have h := c5_rm_force (fun s => if s = "b" then .error "no such file" else .ok ()) true
    ["a", "b", "c"]
  refine ⟨?_, h.2 ["a"] "b" ["c"] rfl (by intro g hg; simp at hg; subst hg; rfl) rfl⟩
  have h1 := h.1
  simpa using h1

/-- Claim C9: with `--force`, `rm` suppresses every `RuntimeError` from
the remote delete — whatever its message (for example a non-empty
directory), not only missing-file failures — so all targets are
processed and the command still succeeds. -/
theorem c9_rm_force_any_runtime_error (msg : String) (v : Bool) (files : List String) :
    rmRun (fun _ => .error msg) v true files ⟨[], []⟩ =
      .ok ⟨files, if v then files else []⟩ := by
  have h := rmRun_force_ok (fun _ => .error msg) v files ⟨[], []⟩
  have hfil : List.filter (rmFails (fun _ => Except.error msg)) files = files :=
    List.filter_eq_self.mpr (fun a _ => rfl)
  simpa [hfil] using h

/-- Claim C6: in `reset` with a non-`SOFT` mode and an empty helper
error string, the final call is the no-follow submission of `reset()`,
and the command returns normally whether or not that submission raises a
serial exception (the exception is caught and ignored). -/
theorem c6_reset_nofollow (mode r : String) (b : Bool)
    (hm : mode ≠ "SOFT") (hr : r = "") :
    resetCmd mode r b =
      .ok [ResetAction.enterRawRepl, ResetAction.execHelper,
        ResetAction.evalOnNextReset, ResetAction.printHereWeAre "",
        ResetAction.execRawNoFollow "reset()"] := by
  subst hr
  cases b <;> simp [resetCmd, hm, execRawNoFollowCall]

/-- Claim C6, witness: a hard reset whose no-follow submission raises a
serial exception still returns normally with the no-follow call last. -/
theorem c6_witness :
    resetCmd "NORMAL" "" true =
      .ok [ResetAction.enterRawRepl, ResetAction.execHelper,
        ResetAction.evalOnNextReset, ResetAction.printHereWeAre "",
        ResetAction.execRawNoFollow "reset()"] :=
  c6_reset_nofollow "NORMAL" "" true (by decide) rfl

/-- Claim C10: when `board_files.run` raises `IOError`, the `run`
command prints the friendly message to standard error and returns
normally — the error is not re-raised. -/
theorem c10_run_ioerror (f : String) :
    runCmd f .ioError =
      .ok [ConsoleEvent.err ("Failed to find or read input file: " ++ f)] := rfl

/-- Claim C7: `get` raises a usage error, in its pre-device argument
checking phase, in exactly these configurations: no argument words at
all (zero remote files), or at least three words (more than one remote
file) whose final local-path word is not an existing local directory. -/
theorem c7_get_usage (isDir : String → Bool) (args : List String) :
    (∃ e, getArgPhase isDir args = .error e) ↔
      (args = [] ∨ ∃ l, args.getLast? = some l ∧ 3 ≤ args.length ∧ isDir l = false) := by
  match args with
  | [] =>
    simp [getArgPhase, clickAssignGet]
  | [a] =>
    simp [getArgPhase, clickAssignGet]
  | [a, b] =>
    simp [getArgPhase, clickAssignGet]
  | a :: b :: c :: cs =>
    obtain ⟨l, hl⟩ : ∃ l, (a :: b :: c :: cs).getLast? = some l :=
      ⟨_, List.getLast?_eq_getLast _ (by simp)⟩
    have hdl : (a :: b :: c :: cs).dropLast = a :: (b :: c :: cs).dropLast := by
      simp [List.dropLast]
    by_cases hid : isDir l
    · simp [getArgPhase, clickAssignGet, hl, hdl, hid]
    · simp [getArgPhase, clickAssignGet, hl, hdl, hid]
